import Mathlib

/-!
Verification of the appauth manifest component of the Intel keystore driver
(security/keystore/appauth in the source tree).

The C sources are shallowly embedded:

* a byte buffer is a `List Nat` of byte values; a C pointer that may be NULL
  is an `Option` of an offset into the buffer;
* every memory read goes through `readU8` / `readU16` / `readU32` / `cstrlen`,
  which return `none` when the access falls outside the modelled buffer, so an
  out-of-bounds access by the C code shows up as a `none` result of the whole
  embedded function (functions whose result type is `Option ...` use the outer
  `Option` for exactly this);
* machine integers are `Nat` with explicit reduction: `uint16_t` cursor
  arithmetic wraps modulo 65536, the `size_t` subtraction of
  `mf_get_next_file` wraps modulo 2 ^ 64 (`subWrap`);
* values that live in headers absent from the tree (chunk type tags, the
  layout of `struct mf_app_data`, kernel hash-algo enumerations) are modelled
  from the spec and marked as such in their doc comments.
-/

namespace AppAuth

/-- Read one byte of the buffer at the given offset; `none` is an
out-of-bounds access. -/
def readU8 (mem : List Nat) (i : Nat) : Option Nat :=
  match mem.drop i with
  | b :: _ => some b
  | [] => none

/-- Read a little-endian `uint16_t` at the given offset (the structures in
manifest_parser.c are `__packed` and the target is little-endian). -/
def readU16 (mem : List Nat) (i : Nat) : Option Nat :=
  match mem.drop i with
  | b0 :: b1 :: _ => some (b0 + 256 * b1)
  | _ => none

/-- Read a little-endian `uint32_t` at the given offset. -/
def readU32 (mem : List Nat) (i : Nat) : Option Nat :=
  match mem.drop i with
  | b0 :: b1 :: b2 :: b3 :: _ =>
      some (b0 + 256 * (b1 + 256 * (b2 + 256 * b3)))
  | _ => none

/-- Distance to the first NUL byte of the list, as C `strlen` would walk it;
`none` when no NUL byte lies inside the modelled buffer (the C call would
read out of bounds). -/
def cstrlenAux : List Nat → Option Nat
  | [] => none
  | b :: bs => if b = 0 then some 0 else (cstrlenAux bs).map Nat.succ

/-- C `strlen` starting at offset `i` of the buffer. -/
def cstrlen (mem : List Nat) (i : Nat) : Option Nat :=
  cstrlenAux (mem.drop i)

/-- Wrapping subtraction of `size_t` values (64-bit), as in
`ctx->bytes_left -= entry_size`. -/
def subWrap (a b : Nat) : Nat :=
  (a + 2 ^ 64 - b % 2 ^ 64) % 2 ^ 64

/-- MAX_CHUNKS from manifest_parser.c. -/
def MAX_CHUNKS : Nat := 10

/-- The digest_len table of manifest_parser.c:
sha1 20, sha224 28, sha256 32, sha384 48, sha512 64. -/
def digest_len : List Nat := [20, 28, 32, 48, 64]

/-- Modelled from the spec: the chunk type tags NAME, DATA, PUBLIC_KEY,
CERTIFICATE, SIGNATURE of section 3 are defined in a header that is not part
of the tree; the concrete numeric values below are arbitrary distinct bytes
and no theorem depends on them. -/
def TYPE_MANIFEST_NAME : Nat := 1

/-- Modelled from the spec: see TYPE_MANIFEST_NAME. -/
def TYPE_MANIFEST_DATA : Nat := 2

/-- Modelled from the spec: see TYPE_MANIFEST_NAME. -/
def TYPE_MANIFEST_PUBLIC_KEY : Nat := 3

/-- Modelled from the spec: see TYPE_MANIFEST_NAME. -/
def TYPE_MANIFEST_CERTIFICATE : Nat := 4

/-- Modelled from the spec: see TYPE_MANIFEST_NAME. -/
def TYPE_MANIFEST_SIGNATURE : Nat := 5

/-- The scan loop of mf_get_chunk.  The envelope header occupies bytes 0..2
of the blob (`version` u8, `len` u16), so `env->data + pos` is absolute
offset `3 + pos`.  `fuel` is `MAX_CHUNKS - i`; the cursor `pos` is a
`uint16_t` and wraps modulo 65536 when advanced, while the bound check
`pos + chunk->len + 3 <= env->len + 1` is carried out in `int` arithmetic
(no wrap).  Result: `some (some pos)` is a returned chunk at offset `pos` of
the chunk area, `some none` is the C function returning NULL, `none` is an
out-of-bounds read. -/
def mfScan (mem : List Nat) (envLen ctype : Nat) : Nat → Nat → Option (Option Nat)
  | _, 0 => some none
  | pos, fuel + 1 =>
    if pos < envLen then
      match readU8 mem (3 + pos), readU16 mem (3 + pos + 1) with
      | some t, some clen =>
        if t = ctype then
          if pos + clen + 3 ≤ envLen + 1 then some (some pos) else some none
        else
          mfScan mem envLen ctype ((pos + clen + 3) % 65536) fuel
      | _, _ => none
    else some none

/-- mf_get_chunk of manifest_parser.c.  A NULL `mf` yields NULL; otherwise
`env->len` is read (bytes 1..2) and the bounded scan runs.  `some (some pos)`
models a non-NULL chunk pointer at chunk-area offset `pos` (absolute offset
`3 + pos`). -/
def mf_get_chunk (mf : Option (List Nat)) (ctype : Nat) : Option (Option Nat) :=
  match mf with
  | none => some none
  | some mem =>
    match readU16 mem 1 with
    | none => none
    | some envLen => mfScan mem envLen ctype 0 MAX_CHUNKS

/-- mf_get_chunk_data of manifest_parser.c, called with a non-NULL `len`
out-pointer as all accessors in the file do.  `some (some (off, len))`
models returning `chunk->data` at absolute offset `off` with `*len` set to
`chunk->len`; `some none` models returning NULL with `*len = 0`. -/
def mf_get_chunk_data (mf : Option (List Nat)) (ctype : Nat) :
    Option (Option (Nat × Nat)) :=
  match mf with
  | none => some none
  | some mem =>
    match mf_get_chunk (some mem) ctype with
    | none => none
    | some none => some none
    | some (some pos) =>
      match readU16 mem (3 + pos + 1) with
      | none => none
      | some clen => some (some (3 + pos + 3, clen))

/-- mf_get_version of manifest_parser.c: 0 for a NULL blob, otherwise the
first byte of the envelope. -/
def mf_get_version (mf : Option (List Nat)) : Option Nat :=
  match mf with
  | none => some 0
  | some mem => readU8 mem 0

/-- mf_get_name of manifest_parser.c: the NAME chunk payload, accepted only
when shorter than 256 bytes and NUL-terminated exactly at its declared
length.  `some (some off)` is the returned name pointer (absolute offset). -/
def mf_get_name (mf : Option (List Nat)) : Option (Option Nat) :=
  match mf with
  | none => some none
  | some mem =>
    match mf_get_chunk_data (some mem) TYPE_MANIFEST_NAME with
    | none => none
    | some none => some none
    | some (some (off, len)) =>
      if len < 256 then
        match cstrlen mem off with
        | none => none
        | some sl => if sl + 1 = len then some (some off) else some none
      else some none

/-- Modelled from the spec: the layout of `struct mf_app_data` lives in a
header absent from the tree.  Per spec sections 3 and 9 the record has an
8-byte fixed header followed by `app_name`; the code uses the fields
`num_files`, `app_name_len` and `app_name`, with
`bytes_left = len - 8 - app_name_len` and the file entries starting at
`app_name + app_name_len`.  This model places `num_files` (u16 LE) at payload
offset 0, `app_name_len` (u8) at offset 2, reserved bytes at 3..7 and
`app_name` at offset 8; no theorem depends on the position of the fields
inside the 8-byte header. -/
def APPDATA_HEADER_SIZE : Nat := 8

/-- Modelled from the spec: payload offset of the `num_files` field, see
APPDATA_HEADER_SIZE. -/
def APPDATA_NUM_FILES_OFF : Nat := 0

/-- Modelled from the spec: payload offset of the `app_name_len` field, see
APPDATA_HEADER_SIZE. -/
def APPDATA_NAME_LEN_OFF : Nat := 2

/-- mf_get_app_data of manifest_parser.c: the DATA chunk payload, accepted
only when its embedded `app_name` is NUL-terminated exactly at
`app_name_len - 1`.  `some (some off)` is the returned record pointer
(absolute offset of the chunk payload). -/
def mf_get_app_data (mf : Option (List Nat)) : Option (Option Nat) :=
  match mf with
  | none => some none
  | some mem =>
    match mf_get_chunk_data (some mem) TYPE_MANIFEST_DATA with
    | none => none
    | some none => some none
    | some (some (off, _len)) =>
      match readU8 mem (off + APPDATA_NAME_LEN_OFF) with
      | none => none
      | some anl =>
        match cstrlen mem (off + APPDATA_HEADER_SIZE) with
        | none => none
        | some sl => if sl + 1 = anl then some (some off) else some none

/-- mf_get_data of manifest_parser.c. -/
def mf_get_data (mf : Option (List Nat)) : Option (Option (Nat × Nat)) :=
  mf_get_chunk_data mf TYPE_MANIFEST_DATA

/-- mf_get_public_key of manifest_parser.c. -/
def mf_get_public_key (mf : Option (List Nat)) : Option (Option (Nat × Nat)) :=
  mf_get_chunk_data mf TYPE_MANIFEST_PUBLIC_KEY

/-- mf_get_certificate of manifest_parser.c. -/
def mf_get_certificate (mf : Option (List Nat)) : Option (Option (Nat × Nat)) :=
  mf_get_chunk_data mf TYPE_MANIFEST_CERTIFICATE

/-- mf_get_signature of manifest_parser.c. -/
def mf_get_signature (mf : Option (List Nat)) : Option (Option (Nat × Nat)) :=
  mf_get_chunk_data mf TYPE_MANIFEST_SIGNATURE

/-- The iterator state `struct mf_files_ctx`.  `num_files_left` is set from
the non-negative `num_files` field and only ever decremented under a
positivity guard, so it is modelled as `Nat`; `bytes_left` is the value of
the `size_t` field (always below 2 ^ 64); `next_file` is the cursor pointer,
`none` when NULL. -/
structure MfCtx where
  num_files_left : Nat
  bytes_left : Nat
  next_file : Option Nat
  deriving DecidableEq, Repr

/-- The three shapes of the `const char *` returned by mf_get_next_file:
a valid filename pointer (absolute offset of the name bytes), NULL, or an
ERR_PTR-encoded error (`-EFAULT = -14` for the malformed-filename case). -/
inductive MfNextRet where
  | name (off : Nat)
  | null
  | errPtr (e : Int)
  deriving DecidableEq, Repr

/-- mf_init_file_list_ctx of manifest_parser.c.  Returns the value of the C
return statement together with the (possibly updated) ctx; the DATA chunk is
fetched through mf_get_chunk_data without any validation of its payload.
The two `size_t` subtractions of `len - 8 - data->app_name_len` wrap as in C.
The result pair is `(return value, ctx afterwards)`; `none` is an
out-of-bounds read. -/
def mf_init_file_list_ctx (mf : Option (List Nat)) (ctx : Option MfCtx) :
    Option (Nat × Option MfCtx) :=
  match ctx with
  | none => some (0, none)
  | some c =>
    match mf with
    | none => some (0, some c)
    | some mem =>
      match mf_get_chunk_data (some mem) TYPE_MANIFEST_DATA with
      | none => none
      | some none => some (0, some c)
      | some (some (off, len)) =>
        match readU16 mem (off + APPDATA_NUM_FILES_OFF),
              readU8 mem (off + APPDATA_NAME_LEN_OFF) with
        | some nf, some anl =>
          some (nf, some ⟨nf, subWrap (subWrap len APPDATA_HEADER_SIZE) anl,
                          some (off + APPDATA_HEADER_SIZE + anl)⟩)
        | _, _ => none

/-- mf_get_next_file of manifest_parser.c.  The unused `mf` parameter of the
C function is dropped; `haveAlgoPtr` / `haveDigestPtr` model whether the
caller passed non-NULL `digest_algo_id` / `digest` out-pointers.  The entry
is decoded at the cursor: `filenamelen` byte, the NUL-termination check via
strlen, the u32 size and the algo id byte are read (and stored through the
out-pointers) before the algo range check; only the success branch mutates
the ctx, consuming `entry_size = 1 + filenamelen + 5 + digest_len[algo]`
bytes with the wrapping `size_t` subtraction on `bytes_left`. -/
def mf_get_next_file (mem : List Nat) (ctx : Option MfCtx)
    (haveAlgoPtr haveDigestPtr : Bool) : Option (MfNextRet × Option MfCtx) :=
  match ctx with
  | none => some (.null, none)
  | some c =>
    match c.next_file with
    | none => some (.null, some c)
    | some off =>
      if 0 < c.num_files_left ∧ 0 < c.bytes_left ∧
          haveAlgoPtr = true ∧ haveDigestPtr = true then
        match readU8 mem off with
        | none => none
        | some filenamelen =>
          match cstrlen mem (off + 1) with
          | none => none
          | some sl =>
            if sl + 1 = filenamelen then
              match readU32 mem (off + filenamelen + 1),
                    readU8 mem (off + filenamelen + 5) with
              | some _sz, some algo =>
                if algo < 5 then
                  some (.name (off + 1),
                    some ⟨c.num_files_left - 1,
                          subWrap c.bytes_left
                            (1 + filenamelen + 5 + digest_len.getD algo 0),
                          some (off + (1 + filenamelen + 5 + digest_len.getD algo 0))⟩)
                else some (.null, some c)
              | _, _ => none
            else some (.errPtr (-14), some c)
      else some (.null, some c)

/-! Trust verifier: sign_verify.c.  The cryptography provider (x509 parsing,
keyring lookup, shash, RSA verification) is an external collaborator, so its
outcomes are inputs of the model; `verify_manifest` itself — the order of the
checks, which error code each failure maps to, and the short-circuiting via
`goto exit` — is embedded faithfully from the source. -/

/-- verify_cert_validity of sign_verify.c: `-EFAULT` when the current time
lies outside `[valid_from, valid_to]`, 0 otherwise. -/
def verify_cert_validity (now valid_from valid_to : Int) : Int :=
  if now < valid_from ∨ now > valid_to then -14 else 0

/-- The distinct error codes of `enum APP_AUTH_ERROR` used by
verify_manifest; the enum lives in a header absent from the tree, so the
codes are modelled as a closed inductive (client.c treats them as distinct
cases of a switch). -/
inductive VResult where
  | ok
  | certFailure
  | certExpired
  | sigFailure
  deriving DecidableEq, Repr

/-- The successive steps of verify_manifest, in source order; the trace of a
run records which of them were executed. -/
inductive VStep where
  | parseCert
  | checkPub
  | checkKeyring
  | checkValidity
  | calcHash
  | verifySig
  deriving DecidableEq, Repr

/-- The outcomes of the external collaborators of verify_manifest, plus the
certificate validity window and the current time read inside
verify_cert_validity. -/
structure TrustEnv where
  parseOk : Bool
  hasPub : Bool
  keyringRes : Int
  valid_from : Int
  valid_to : Int
  now : Int
  calcHashRes : Int
  sigVerifyRes : Int
  deriving DecidableEq, Repr

/-- verify_manifest of sign_verify.c: parse the certificate, require a
public key, check the trust-anchor keyring, check the validity window,
digest the data with the default signature hash, verify the RSA signature;
each failure short-circuits with its specific error code.  The returned list
is the trace of executed steps. -/
def verify_manifest (e : TrustEnv) : VResult × List VStep :=
  if e.parseOk = false then (.certFailure, [.parseCert])
  else if e.hasPub = false then (.certFailure, [.parseCert, .checkPub])
  else if e.keyringRes ≠ 0 then
    (.certFailure, [.parseCert, .checkPub, .checkKeyring])
  else if verify_cert_validity e.now e.valid_from e.valid_to ≠ 0 then
    (.certExpired, [.parseCert, .checkPub, .checkKeyring, .checkValidity])
  else if e.calcHashRes < 0 then
    (.sigFailure, [.parseCert, .checkPub, .checkKeyring, .checkValidity, .calcHash])
  else if e.sigVerifyRes ≠ 0 then
    (.sigFailure,
     [.parseCert, .checkPub, .checkKeyring, .checkValidity, .calcHash, .verifySig])
  else
    (.ok,
     [.parseCert, .checkPub, .checkKeyring, .checkValidity, .calcHash, .verifySig])

/-! Digest engine boundary: file_hash_verify.c. -/

/-- appauth_alloc_tfm of file_hash_verify.c, reduced to its algorithm
selection: an out-of-range requested id (`algo < 0 || algo >= HASH_ALGO__LAST`)
is replaced by `manifest_default_hash_algo` before the shash allocation.  The
values of `HASH_ALGO__LAST` and of the configured default live outside the
tree, so they are parameters. -/
def appauth_alloc_tfm_algo (hashAlgoLast defaultAlgo : Nat) (algo : Int) : Nat :=
  if algo < 0 ∨ (hashAlgoLast : Int) ≤ algo then defaultAlgo else algo.toNat

/-- The constants consumed by convert_hash_id: the `DIGEST_ALGO_*` manifest
ids and the kernel `HASH_ALGO_*` ids, all defined in headers absent from the
tree.  Keeping them as parameters makes every theorem about convert_hash_id
hold for any assignment of values. -/
structure HashIdConsts where
  DIGEST_ALGO_MD5 : Nat
  DIGEST_ALGO_SHA1 : Nat
  DIGEST_ALGO_SHA224 : Nat
  DIGEST_ALGO_SHA384 : Nat
  DIGEST_ALGO_SHA512 : Nat
  HASH_ALGO_MD5 : Nat
  HASH_ALGO_SHA1 : Nat
  HASH_ALGO_SHA224 : Nat
  HASH_ALGO_SHA384 : Nat
  HASH_ALGO_SHA512 : Nat
  deriving DecidableEq, Repr

/-- convert_hash_id of file_hash_verify.c, embedded exactly as written: each
condition of the if/else chain is the constant `DIGEST_ALGO_*` itself
(`if (DIGEST_ALGO_MD5) ... else if (DIGEST_ALGO_SHA1) ...`), not a comparison
with the `digest_algo_id` parameter, which consequently never influences the
result. -/
def convert_hash_id (k : HashIdConsts) (digest_algo_id : Nat) : Nat :=
  if k.DIGEST_ALGO_MD5 ≠ 0 then k.HASH_ALGO_MD5
  else if k.DIGEST_ALGO_SHA1 ≠ 0 then k.HASH_ALGO_SHA1
  else if k.DIGEST_ALGO_SHA224 ≠ 0 then k.HASH_ALGO_SHA224
  else if k.DIGEST_ALGO_SHA384 ≠ 0 then k.HASH_ALGO_SHA384
  else if k.DIGEST_ALGO_SHA512 ≠ 0 then k.HASH_ALGO_SHA512
  else k.HASH_ALGO_SHA1

/-- The external collaborators of compute_file_hash: whether filp_open
succeeds, the digest the engine computes for the opened file under a given
kernel algorithm id, the kernel `hash_digest_size` table, and the result of
process_file's hashing machinery (0 on success, negative on failure). -/
structure FileHashEnv where
  openOk : Bool
  fileDigest : Nat → List Nat
  digestSize : Nat → Nat
  processRes : Int
  deriving Inhabited

/-- The distinct outcomes of compute_file_hash of file_hash_verify.c:
`-EBADF` when filp_open fails, the negative process_file result when hashing
fails, 0 on digest match, `-HASH_FAILURE` on mismatch (the numeric value of
HASH_FAILURE lives in a header absent from the tree; the constructors keep
the outcomes distinct as client.c's switch does). -/
inductive FileHashResult where
  | badf
  | processErr (e : Int)
  | success
  | hashFailure
  deriving DecidableEq, Repr

/-- compute_file_hash of file_hash_verify.c: open the file, select the
kernel hash algorithm via `hash.algo = convert_hash_id(digest_algo_id)`,
run process_file, then memcmp the computed digest against the manifest
digest over `hash_digest_size[hash.algo]` bytes. -/
def compute_file_hash (k : HashIdConsts) (env : FileHashEnv)
    (digest : List Nat) (digest_algo_id : Nat) : FileHashResult :=
  if env.openOk = false then .badf
  else
    let algo := convert_hash_id k digest_algo_id
    if env.processRes < 0 then .processErr env.processRes
    else if (env.fileDigest algo).take (env.digestSize algo) =
        digest.take (env.digestSize algo) then .success
    else .hashFailure

/-! Abstract file entries and their byte encoding, used to express
well-formedness of an app-data record's file list (spec section 3). -/

/-- One file entry of the app-data record: the filename characters without
the terminating NUL, the u32 size field, the digest algorithm id and the
digest bytes. -/
structure FileEntry where
  nameChars : List Nat
  size : Nat
  algo : Nat
  digest : List Nat
  deriving DecidableEq, Repr

/-- The name_len field of an entry: length of the name including its NUL. -/
def FileEntry.nameLen (e : FileEntry) : Nat := e.nameChars.length + 1

/-- Little-endian encoding of a u32 field. -/
def encU32 (n : Nat) : List Nat :=
  [n % 256, n / 256 % 256, n / 256 ^ 2 % 256, n / 256 ^ 3 % 256]

/-- Byte encoding of a file entry:
name_len, name bytes with NUL, u32 size, algo id, digest bytes. -/
def encEntry (e : FileEntry) : List Nat :=
  e.nameLen :: (e.nameChars ++ 0 :: (encU32 e.size ++ e.algo :: e.digest))

/-- The entry_size of manifest_parser.c:
1 + name_len + 4 + 1 + digest_len[algo]. -/
def entrySize (e : FileEntry) : Nat :=
  1 + e.nameLen + 5 + digest_len.getD e.algo 0

/-- A well-formed entry: printable name bytes (no NUL, one byte each), a
name_len that fits its u8 field, a digest algorithm inside the digest_len
table and a digest of exactly the declared length. -/
def WfEntry (e : FileEntry) : Prop :=
  (∀ b ∈ e.nameChars, b ≠ 0) ∧ e.nameLen < 256 ∧ e.algo < 5 ∧
    e.digest.length = digest_len.getD e.algo 0

instance (e : FileEntry) : Decidable (WfEntry e) := by
  unfold WfEntry; infer_instance

/-- Byte encoding of a list of file entries, packed contiguously. -/
def encEntries : List FileEntry → List Nat
  | [] => []
  | e :: es => encEntry e ++ encEntries es

/-- Total byte size of a list of file entries. -/
def totalSize : List FileEntry → Nat
  | [] => 0
  | e :: es => entrySize e + totalSize es

/-- Iterated calls of mf_get_next_file: perform `k` successive calls,
collecting the returned values and threading the ctx. -/
def iterCalls (mem : List Nat) : Nat → Option MfCtx →
    Option (List MfNextRet × Option MfCtx)
  | 0, ctx => some ([], ctx)
  | k + 1, ctx =>
    match mf_get_next_file mem ctx true true with
    | none => none
    | some (r, ctx') =>
      match iterCalls mem k ctx' with
      | none => none
      | some (rs, ctx'') => some (r :: rs, ctx'')

/-- The offsets at which the successive filename pointers of a packed entry
list are returned. -/
def nameOffsets (off : Nat) : List FileEntry → List Nat
  | [] => []
  | e :: es => (off + 1) :: nameOffsets (off + entrySize e) es

/-- A concrete two-entry file list used to exercise the iterator: "a" with a
20-byte sha1 digest and "b" with a 28-byte sha224 digest. -/
def sampleEntries : List FileEntry :=
  [⟨[97], 0, 0, List.replicate 20 1⟩, ⟨[98], 0, 1, List.replicate 28 2⟩]

/-- A concrete well-formed manifest blob around sampleEntries: envelope
(version 1, declared length 77), one DATA chunk (type 2, length 74), whose
payload is num_files = 2, app_name_len = 2, five reserved bytes, the
app name "A", then the two packed entries (64 bytes, cursor at offset 16). -/
def sampleBlob : List Nat :=
  [1, 77, 0, 2, 74, 0, 2, 0, 2, 0, 0, 0, 0, 0, 65, 0] ++ encEntries sampleEntries

/-! Helper lemmas. -/

theorem cstrlenAux_no_nul {chars : List Nat} (h : ∀ b ∈ chars, b ≠ 0)
    (rest : List Nat) :
    cstrlenAux (chars ++ 0 :: rest) = some chars.length := by
  induction chars with
  | nil => simp [cstrlenAux]
  | cons b bs ih =>
    have hb : b ≠ 0 := h b (by simp)
    have hbs : ∀ x ∈ bs, x ≠ 0 := fun x hx => h x (by simp [hx])
    simp [cstrlenAux, hb, ih hbs]

theorem encEntry_length {e : FileEntry}
    (hd : e.digest.length = digest_len.getD e.algo 0) :
    (encEntry e).length = entrySize e := by
  simp [encEntry, entrySize, encU32, FileEntry.nameLen, hd]
  omega

theorem subWrap_cancel {a b : Nat} (h : a + b < 2 ^ 64) :
    subWrap (a + b) a = b := by
  unfold subWrap
  omega

/-- Decoding one well-formed entry at the cursor: the reads of
mf_get_next_file succeed and the call consumes exactly the entry. -/
theorem next_file_step (mem : List Nat) (off : Nat) (e : FileEntry)
    (tail : List Nat) (c : MfCtx)
    (hmem : mem.drop off = encEntry e ++ tail) (hwf : WfEntry e)
    (hnf : c.next_file = some off)
    (h1 : 0 < c.num_files_left) (h2 : 0 < c.bytes_left) :
    mf_get_next_file mem (some c) true true =
      some (.name (off + 1),
        some ⟨c.num_files_left - 1, subWrap c.bytes_left (entrySize e),
              some (off + entrySize e)⟩) := by
  obtain ⟨hnz, hlen, halgo, hdig⟩ := hwf
  have e1 : readU8 mem off = some (e.nameChars.length + 1) := by
    simp [readU8, hmem, encEntry, FileEntry.nameLen]
  have hdrop1 : mem.drop (off + 1) =
      e.nameChars ++ 0 :: (encU32 e.size ++ e.algo :: (e.digest ++ tail)) := by
    have h := congrArg (List.drop 1) hmem
    rw [List.drop_drop] at h
    simpa [encEntry, List.append_assoc] using h
  have e2 : cstrlen mem (off + 1) = some e.nameChars.length := by
    rw [cstrlen, hdrop1]
    exact cstrlenAux_no_nul hnz _
  have hdrop2 : mem.drop (off + (e.nameChars.length + 1) + 1) =
      encU32 e.size ++ e.algo :: (e.digest ++ tail) := by
    have h := congrArg (List.drop (e.nameChars.length + 1)) hdrop1
    rw [List.drop_drop] at h
    have hidx : off + 1 + (e.nameChars.length + 1) =
        off + (e.nameChars.length + 1) + 1 := by omega
    rw [hidx] at h
    rw [h]
    show (e.nameChars ++ 0 :: (encU32 e.size ++ e.algo :: (e.digest ++ tail))).drop
        (e.nameChars.length + 1) = _
    rw [← List.drop_drop, List.drop_left]
    rfl
  have e3 : readU32 mem (off + (e.nameChars.length + 1) + 1) =
      some (e.size % 256 + 256 * (e.size / 256 % 256 +
        256 * (e.size / 256 ^ 2 % 256 + 256 * (e.size / 256 ^ 3 % 256)))) := by
    simp [readU32, hdrop2, encU32]
  have hdrop3 : mem.drop (off + (e.nameChars.length + 1) + 5) =
      e.algo :: (e.digest ++ tail) := by
    have h := congrArg (List.drop 4) hdrop2
    rw [List.drop_drop] at h
    have hidx : off + (e.nameChars.length + 1) + 1 + 4 =
        off + (e.nameChars.length + 1) + 5 := by omega
    rw [hidx] at h
    rw [h]
    simp [encU32]
  have e4 : readU8 mem (off + (e.nameChars.length + 1) + 5) = some e.algo := by
    simp [readU8, hdrop3]
  simp [mf_get_next_file, hnf, h1, h2, e1, e2, e3, e4, halgo, entrySize,
    FileEntry.nameLen]

/-- Iterating over a packed list of well-formed entries: every call returns
the next filename pointer, both counters run down in lockstep, and after the
last entry the ctx is exactly `⟨0, 0, cursor at the end⟩`. -/
theorem iterCalls_encEntries (es : List FileEntry) :
    ∀ (mem : List Nat) (off : Nat) (tail : List Nat) (c : MfCtx),
    (∀ e ∈ es, WfEntry e) →
    mem.drop off = encEntries es ++ tail →
    c.num_files_left = es.length →
    c.bytes_left = totalSize es →
    c.next_file = some off →
    totalSize es < 2 ^ 64 →
    iterCalls mem es.length (some c) =
      some ((nameOffsets off es).map MfNextRet.name,
            some ⟨0, 0, some (off + totalSize es)⟩) := by
  induction es with
  | nil =>
    intro mem off tail c _ _ hn hb hnf _
    cases c
    simp_all [iterCalls, nameOffsets, totalSize]
  | cons e es ih =>
    intro mem off tail c hwf hmem hn hb hnf hfits
    have hwfe : WfEntry e := hwf e (by simp)
    have hwfr : ∀ x ∈ es, WfEntry x := fun x hx => hwf x (by simp [hx])
    have hmem1 : mem.drop off = encEntry e ++ (encEntries es ++ tail) := by
      simpa [encEntries, List.append_assoc] using hmem
    have h1 : 0 < c.num_files_left := by simp [hn]
    have h2 : 0 < c.bytes_left := by
      have : 0 < entrySize e := by unfold entrySize; omega
      have hb' : c.bytes_left = entrySize e + totalSize es := by
        simpa [totalSize] using hb
      omega
    have hstep := next_file_step mem off e (encEntries es ++ tail) c hmem1
      hwfe hnf h1 h2
    have hsub : subWrap c.bytes_left (entrySize e) = totalSize es := by
      rw [hb]
      show subWrap (entrySize e + totalSize es) (entrySize e) = totalSize es
      exact subWrap_cancel (by simpa [totalSize] using hfits)
    have hmem2 : mem.drop (off + entrySize e) = encEntries es ++ tail := by
      have h := congrArg (List.drop (entrySize e)) hmem1
      rw [List.drop_drop] at h
      rw [h, List.drop_left' (encEntry_length hwfe.2.2.2)]
    have hrec := ih mem (off + entrySize e) tail
      ⟨c.num_files_left - 1, subWrap c.bytes_left (entrySize e),
        some (off + entrySize e)⟩
      hwfr hmem2 (by simp [hn]) (by simp [hsub]) rfl
      (by have : 0 ≤ entrySize e := Nat.zero_le _
          simp [totalSize] at hfits; omega)
    show iterCalls mem (es.length + 1) (some c) = _
    rw [iterCalls, hstep]
    have hoff : off + entrySize e + totalSize es = off + totalSize (e :: es) := by
      simp [totalSize]; omega
    simp [hrec, nameOffsets, hoff]

/-- The iterator refuses to advance once either counter is zero: the call
returns NULL and the ctx is untouched. -/
theorem next_file_refuse (mem : List Nat) (c : MfCtx) (b1 b2 : Bool)
    (h : c.num_files_left = 0 ∨ c.bytes_left = 0) :
    mf_get_next_file mem (some c) b1 b2 = some (.null, some c) := by
  cases hnf : c.next_file with
  | none => simp [mf_get_next_file, hnf]
  | some off =>
    have hcond : ¬(0 < c.num_files_left ∧ 0 < c.bytes_left ∧
        b1 = true ∧ b2 = true) := by
      rintro ⟨ha, hb, -, -⟩
      omega
    simp [mf_get_next_file, hnf, hcond]

/-- Decomposition of a successful mf_init_file_list_ctx call: either the ctx
was filled from the DATA chunk (and its file counter is the returned value),
or the chunk was absent and 0 was returned with the ctx untouched. -/
theorem init_cases (mem : List Nat) (c0 : MfCtx) (N : Nat) (c : MfCtx)
    (h : mf_init_file_list_ctx (some mem) (some c0) = some (N, some c)) :
    c.num_files_left = N ∨ (N = 0 ∧ c = c0) := by
  simp only [mf_init_file_list_ctx] at h
  split at h
  · exact Option.noConfusion h
  · simp only [Option.some.injEq, Prod.mk.injEq] at h
    exact Or.inr ⟨h.1.symm, h.2.symm⟩
  · split at h
    · simp only [Option.some.injEq, Prod.mk.injEq] at h
      obtain ⟨h1, h2⟩ := h
      left
      rw [← h2, ← h1]
    · exact Option.noConfusion h

theorem nameOffsets_length (es : List FileEntry) :
    ∀ off, (nameOffsets off es).length = es.length := by
  induction es with
  | nil => intro off; rfl
  | cons e es ih => intro off; simp [nameOffsets, ih]

/-- Any chunk returned by the scan satisfies the scan's own acceptance
bound: its end lies at most one byte past the declared envelope length. -/
theorem mfScan_found_bound (mem : List Nat) (envLen ctype : Nat) :
    ∀ (fuel pos p : Nat), mfScan mem envLen ctype pos fuel = some (some p) →
    ∃ clen, readU16 mem (3 + p + 1) = some clen ∧ p + clen + 3 ≤ envLen + 1 := by
  intro fuel
  induction fuel with
  | zero =>
    intro pos p h
    simp [mfScan] at h
  | succ n ih =>
    intro pos p h
    rw [mfScan] at h
    split at h
    · split at h
      · split at h
        · split at h
          · simp only [Option.some.injEq] at h
            rename_i hclen _ hle
            exact h ▸ ⟨_, hclen, h ▸ hle⟩
          · exact Option.noConfusion h (fun hh => Option.noConfusion hh)
        · exact ih _ _ h
      · exact Option.noConfusion h
    · exact Option.noConfusion h (fun hh => Option.noConfusion hh)

/-- Claim C1, counterexample.  The claim states that a chunk found by the
scan whose header-declared length places its end past the envelope's
declared length is never returned.  In the blob below the envelope declares
4 bytes of chunk area, and the single chunk of type 7 declares length 2, so
the chunk ends at offset 5 of the chunk area — one byte past the declared
length — yet mf_get_chunk returns it, because the source bound check is
`pos + chunk->len + 3 <= env->len + 1` (the off-by-one flagged in the spec's
design notes). -/
theorem c1_counterexample :
    mf_get_chunk (some [1, 4, 0, 7, 2, 0]) 7 = some (some 0) ∧ 4 < 0 + 2 + 3 := by
  constructor
  · rfl
  · decide

/-- Claim C1, amended: a chunk is returned only if its end lies within the
envelope's declared length PLUS ONE byte (the literal source bound
`pos + chunk->len + 3 <= env->len + 1`); any chunk overrunning the declared
length by two bytes or more is treated as malformed and the lookup returns
absent. -/
theorem c1_amended_chunk_bound (mem : List Nat) (ctype p : Nat)
    (h : mf_get_chunk (some mem) ctype = some (some p)) :
    ∃ envLen clen, readU16 mem 1 = some envLen ∧
      readU16 mem (3 + p + 1) = some clen ∧ p + clen + 3 ≤ envLen + 1 := by
  simp only [mf_get_chunk] at h
  cases h16 : readU16 mem 1 with
  | none => rw [h16] at h; exact Option.noConfusion h
  | some envLen =>
    rw [h16] at h
    obtain ⟨clen, hc, hb⟩ := mfScan_found_bound mem envLen ctype MAX_CHUNKS 0 p h
    exact ⟨envLen, clen, rfl, hc, hb⟩

/-- Claim C1, witness for the amended theorem at a concrete in-bounds
blob. -/
theorem c1_amended_witness :
    ∃ envLen clen, readU16 [1, 5, 0, 7, 2, 0] 1 = some envLen ∧
      readU16 [1, 5, 0, 7, 2, 0] (3 + 0 + 1) = some clen ∧
      0 + clen + 3 ≤ envLen + 1 :=
  c1_amended_chunk_bound [1, 5, 0, 7, 2, 0] 7 0 (by rfl)

/-- Claim C2, code bug.  The claim (and the source's own doc comment on
convert_hash_id) says the digest is computed with the entry's own declared
digest_algo_id.  But every condition of convert_hash_id's if/else chain
tests a constant (`if (DIGEST_ALGO_MD5)`), not a comparison with the
parameter, so for any values of the missing header constants the selected
kernel algorithm — and with it the whole verdict of compute_file_hash — is
independent of the entry's declared algorithm id. -/
theorem c2_digest_algo_ignored (k : HashIdConsts) (env : FileHashEnv)
    (digest : List Nat) (a b : Nat) :
    convert_hash_id k a = convert_hash_id k b ∧
    compute_file_hash k env digest a = compute_file_hash k env digest b :=
  ⟨rfl, rfl⟩

/-- Claim C3, code bug, evaluated at the failing input.  The iterator ctx
declares only 3 bytes left, yet the cursor points at a well-formed 28-byte
entry (name_len 2, name "a", sha1 digest).  The claim — and the spec's
iterator invariant — requires the final partial entry to be rejected; the
code instead consumes it: it returns the filename, decrements the file
counter, advances the cursor by the full 28 bytes, and the `size_t`
subtraction `bytes_left -= entry_size` wraps to 2 ^ 64 - 25. -/
theorem c3_partial_entry_consumed :
    mf_get_next_file [2, 97, 0, 0, 0, 0, 0, 0] (some ⟨1, 3, some 0⟩) true true =
      some (.name 1, some ⟨0, 18446744073709551591, some 28⟩) ∧
    (3 : Nat) < 1 + 2 + 5 + digest_len.getD 0 0 := by
  constructor
  · rfl
  · decide

/-- Claim C4, counterexample.  The claim covers a blob of length 0: every
accessor should return absent without reading outside the blob.  But
mf_get_version dereferences `env->version` whenever the pointer is non-NULL;
on the empty blob this read is out of bounds (the model returns `none` for
an out-of-bounds access, whereas returning 0 without a read would be
`some 0`). -/
theorem c4_counterexample :
    mf_get_version (some ([] : List Nat)) = none := rfl

/-- Claim C4, amended: the safety contract holds for a NULL blob reference —
every accessor returns absent (0, NULL, or an untouched ctx) without
performing any memory read — but not for a present blob of length 0, whose
envelope header the code reads unconditionally. -/
theorem c4_amended_null_blob_safe :
    mf_get_version none = some 0 ∧
    (∀ t, mf_get_chunk none t = some none) ∧
    (∀ t, mf_get_chunk_data none t = some none) ∧
    mf_get_name none = some none ∧
    mf_get_app_data none = some none ∧
    mf_get_data none = some none ∧
    mf_get_public_key none = some none ∧
    mf_get_certificate none = some none ∧
    mf_get_signature none = some none ∧
    (∀ c, mf_init_file_list_ctx none c = some (0, c)) ∧
    (∀ mem b1 b2, mf_get_next_file mem none b1 b2 = some (.null, none)) := by
  refine ⟨rfl, fun t => rfl, fun t => rfl, rfl, rfl, rfl,
    rfl, rfl, rfl, fun c => ?_, fun mem b1 b2 => rfl⟩
  cases c <;> rfl

/-- Claim C5, counterexample.  The claim says an out-of-range digest_algo_id
is a distinguished failure, "not a normal end of iteration".  Below, the
entry at the cursor is well formed except that its algo id byte is 5
(one past the digest_len table) and both counters are positive; the call
returns NULL — and NULL is exactly the value returned at a normal end of
iteration (second conjunct: counters at zero also yield NULL), so the
failure is not distinguishable from a clean end by the return value.  Only
the malformed-filename case gets the distinguished ERR_PTR value. -/
theorem c5_counterexample :
    mf_get_next_file [2, 97, 0, 1, 0, 0, 0, 5] (some ⟨1, 28, some 0⟩) true true =
      some (.null, some ⟨1, 28, some 0⟩) ∧
    mf_get_next_file [2, 97, 0, 1, 0, 0, 0, 5] (some ⟨0, 0, some 0⟩) true true =
      some (.null, some ⟨0, 0, some 0⟩) := by
  constructor
  · rfl
  · rfl

/-- Claim C5, amended: an out-of-range digest_algo_id (id >= 5) is a hard
stop for the iteration — no default algorithm is substituted and the cursor
and counters are left untouched — but it is signalled by returning NULL, the
same value as a normal end of iteration, not by a distinguished error
value. -/
theorem c5_amended_bad_algo_halts (mem : List Nat) (c : MfCtx)
    (off L sl sz algo : Nat)
    (hnf : c.next_file = some off)
    (h1 : 0 < c.num_files_left) (h2 : 0 < c.bytes_left)
    (hr : readU8 mem off = some L)
    (hs : cstrlen mem (off + 1) = some sl)
    (hok : sl + 1 = L)
    (h32 : readU32 mem (off + L + 1) = some sz)
    (ha : readU8 mem (off + L + 5) = some algo)
    (hbad : 5 ≤ algo) :
    mf_get_next_file mem (some c) true true = some (.null, some c) := by
  have hnl : ¬ algo < 5 := by omega
  simp [mf_get_next_file, hnf, h1, h2, hr, hs, hok, h32, ha, hnl]

/-- Claim C5, witness for the amended theorem at the concrete bad-algo
entry. -/
theorem c5_amended_witness :
    mf_get_next_file [2, 97, 0, 1, 0, 0, 0, 6] (some ⟨2, 40, some 0⟩) true true =
      some (.null, some ⟨2, 40, some 0⟩) :=
  c5_amended_bad_algo_halts [2, 97, 0, 1, 0, 0, 0, 6] ⟨2, 40, some 0⟩ 0 2 1 1 6
    rfl (by decide) (by decide) rfl rfl rfl rfl rfl (by decide)

/-- Claim C7, counterexample to its second half: the clean-end value is NOT
returned only when the counters reach zero.  Here the entry's filename is
correctly NUL-terminated, both counters are positive, but the algo id byte
is 9: the call returns NULL — the clean-end value — with the counters still
positive. -/
theorem c7_counterexample :
    mf_get_next_file [3, 98, 99, 0, 0, 0, 0, 0, 9] (some ⟨2, 50, some 0⟩)
      true true = some (.null, some ⟨2, 50, some 0⟩) := rfl

/-- Claim C7, amended: a file entry whose filename is not NUL-terminated
exactly at offset name_len - 1 makes mf_get_next_file return the
distinguished malformed-error value ERR_PTR(-EFAULT) with the ctx untouched
(not a clean end and not a filename); NULL however is returned not only when
the counters reach zero but also when an entry's digest algorithm id is out
of range. -/
theorem c7_amended_malformed_name (mem : List Nat) (c : MfCtx) (off L sl : Nat)
    (hnf : c.next_file = some off)
    (h1 : 0 < c.num_files_left) (h2 : 0 < c.bytes_left)
    (hr : readU8 mem off = some L)
    (hs : cstrlen mem (off + 1) = some sl)
    (hbad : sl + 1 ≠ L) :
    mf_get_next_file mem (some c) true true =
      some (.errPtr (-14), some c) := by
  simp [mf_get_next_file, hnf, h1, h2, hr, hs, hbad]

/-- Claim C7, witness for the amended theorem: name_len declares 3 bytes but
the NUL sits at offset 1 of the name. -/
theorem c7_amended_witness :
    mf_get_next_file [3, 97, 0] (some ⟨1, 10, some 0⟩) true true =
      some (.errPtr (-14), some ⟨1, 10, some 0⟩) :=
  c7_amended_malformed_name [3, 97, 0] ⟨1, 10, some 0⟩ 0 3 1
    rfl (by decide) (by decide) rfl rfl (by decide)

/-- Claim C10: any call of mf_get_next_file that does not return a filename
— NULL from the guards, NULL from an out-of-range algo id, or the
ERR_PTR(-EFAULT) malformed-filename error — leaves the iterator fields
num_files_left, bytes_left and next_file exactly as they were; only the
success branch mutates the ctx. -/
theorem c10_failure_preserves_ctx (mem : List Nat) (ctx ctx' : Option MfCtx)
    (b1 b2 : Bool) (r : MfNextRet)
    (h : mf_get_next_file mem ctx b1 b2 = some (r, ctx'))
    (hfail : ∀ o, r ≠ MfNextRet.name o) : ctx' = ctx := by
  rcases ctx with _ | c
  · simp only [mf_get_next_file, Option.some.injEq, Prod.mk.injEq] at h
    exact h.2.symm
  · rcases hnf : c.next_file with _ | off
    · simp only [mf_get_next_file, hnf, Option.some.injEq, Prod.mk.injEq] at h
      exact h.2.symm
    · simp only [mf_get_next_file, hnf] at h
      repeat' split at h
      all_goals first
        | exact Option.noConfusion h
        | (simp only [Option.some.injEq, Prod.mk.injEq] at h
           exact h.2.symm)
        | (simp only [Option.some.injEq, Prod.mk.injEq] at h
           exact absurd h.1.symm (hfail _))

/-- Claim C10, witness: a refused call (both counters zero) leaves the ctx
unchanged. -/
theorem c10_witness :
    (some (⟨0, 0, some 0⟩ : MfCtx) : Option MfCtx) = some ⟨0, 0, some 0⟩ :=
  c10_failure_preserves_ctx [] (some ⟨0, 0, some 0⟩) (some ⟨0, 0, some 0⟩)
    true true .null rfl (fun _ h => MfNextRet.noConfusion h)

/-- Claim C8: when the certificate parses, carries a public key and matches
the trust-anchor keyring, but the current time lies outside
[valid_from, valid_to], verify_manifest returns CERTIFICATE_EXPIRED — for
any outcome of the signature machinery, in particular a valid signature —
and neither the digest computation nor the signature verification step is
ever executed. -/
theorem c8_expired_short_circuits (e : TrustEnv)
    (hp : e.parseOk = true) (hk : e.hasPub = true) (hr : e.keyringRes = 0)
    (hexp : e.now < e.valid_from ∨ e.now > e.valid_to) :
    (verify_manifest e).1 = .certExpired ∧
    VStep.calcHash ∉ (verify_manifest e).2 ∧
    VStep.verifySig ∉ (verify_manifest e).2 := by
  have hv : verify_cert_validity e.now e.valid_from e.valid_to = -14 := by
    unfold verify_cert_validity
    rw [if_pos hexp]
  have heq : verify_manifest e =
      (.certExpired, [.parseCert, .checkPub, .checkKeyring, .checkValidity]) := by
    simp [verify_manifest, hp, hk, hr, hv]
  rw [heq]
  refine ⟨rfl, ?_, ?_⟩ <;> decide

/-- Claim C8, witness: an expired certificate (now = 99 past valid_to = 10)
with every cryptographic step reporting success, in particular a valid
signature. -/
theorem c8_witness :
    (verify_manifest ⟨true, true, 0, 0, 10, 99, 0, 0⟩).1 = .certExpired ∧
    VStep.calcHash ∉ (verify_manifest ⟨true, true, 0, 0, 10, 99, 0, 0⟩).2 ∧
    VStep.verifySig ∉ (verify_manifest ⟨true, true, 0, 0, 10, 99, 0, 0⟩).2 :=
  c8_expired_short_circuits ⟨true, true, 0, 0, 10, 99, 0, 0⟩
    rfl rfl rfl (Or.inr (by decide))

/-- Claim C9: at the digest-engine boundary, any out-of-range requested
algorithm id — negative or at least HASH_ALGO__LAST — is silently replaced
by the configured default algorithm and the allocation proceeds with it
(whereas the manifest parser treats an out-of-range id as a hard stop, see
the C5 theorems). -/
theorem c9_engine_substitutes_default (hashAlgoLast defaultAlgo : Nat)
    (algo : Int) (h : algo < 0 ∨ (hashAlgoLast : Int) ≤ algo) :
    appauth_alloc_tfm_algo hashAlgoLast defaultAlgo algo = defaultAlgo := by
  unfold appauth_alloc_tfm_algo
  rw [if_pos h]

/-- Claim C9, witness: a negative requested id yields the default. -/
theorem c9_witness : appauth_alloc_tfm_algo 18 4 (-1) = 4 :=
  c9_engine_substitutes_default 18 4 (-1) (Or.inl (by decide))

/-- Claim C6: for a well-formed app-data record — the region at the
iterator's cursor is a packed sequence of well-formed file entries whose
count and total byte size agree with the counters mf_init_file_list_ctx
computed — if init returned N then exactly N successive mf_get_next_file
calls return filenames, bytes_left is exactly 0 after the N-th call, and the
next call signals the end. -/
theorem c6_exact_iteration (mem : List Nat) (ctx0 : MfCtx) (N : Nat)
    (ctx : MfCtx) (es : List FileEntry) (off : Nat) (tail : List Nat)
    (hinit : mf_init_file_list_ctx (some mem) (some ctx0) = some (N, some ctx))
    (hwf : ∀ e ∈ es, WfEntry e)
    (hN : es.length = N)
    (hnf : ctx.next_file = some off)
    (hmem : mem.drop off = encEntries es ++ tail)
    (hbytes : ctx.bytes_left = totalSize es)
    (hfits : totalSize es < 2 ^ 64) :
    ∃ rs ctxf, iterCalls mem N (some ctx) = some (rs, some ctxf) ∧
      rs.length = N ∧ (∀ r ∈ rs, ∃ o, r = MfNextRet.name o) ∧
      ctxf.bytes_left = 0 ∧
      mf_get_next_file mem (some ctxf) true true = some (.null, some ctxf) := by
  subst hN
  rcases init_cases mem ctx0 es.length ctx hinit with hnum | ⟨hlen0, hctx⟩
  · have hit := iterCalls_encEntries es mem off tail ctx hwf hmem hnum
      hbytes hnf hfits
    refine ⟨(nameOffsets off es).map MfNextRet.name,
      ⟨0, 0, some (off + totalSize es)⟩, hit, ?_, ?_, rfl, ?_⟩
    · simp [nameOffsets_length]
    · intro r hr
      simp only [List.mem_map] at hr
      obtain ⟨o, -, ho⟩ := hr
      exact ⟨o, ho.symm⟩
    · exact next_file_refuse mem _ true true (Or.inl rfl)
  · have hes : es = [] := List.length_eq_zero.mp hlen0
    subst hes
    refine ⟨[], ctx, ?_, rfl, by simp, by simpa [totalSize] using hbytes, ?_⟩
    · simp [iterCalls]
    · exact next_file_refuse mem ctx true true
        (Or.inr (by simpa [totalSize] using hbytes))

/-- Claim C6, witness: on the concrete blob, init returns 2 and the premises
of the iteration theorem hold, so exactly two filename-returning calls occur
before the end signal and bytes_left ends at exactly 0. -/
theorem c6_witness :
    ∃ rs ctxf, iterCalls sampleBlob 2 (some ⟨2, 64, some 16⟩) =
        some (rs, some ctxf) ∧
      rs.length = 2 ∧ (∀ r ∈ rs, ∃ o, r = MfNextRet.name o) ∧
      ctxf.bytes_left = 0 ∧
      mf_get_next_file sampleBlob (some ctxf) true true =
        some (.null, some ctxf) :=
  c6_exact_iteration sampleBlob ⟨0, 0, none⟩ 2 ⟨2, 64, some 16⟩
    sampleEntries 16 []
    (by decide) (by decide) (by decide) rfl (by decide) (by decide) (by decide)

end AppAuth
